import Mathlib

/-!
Shallow embedding of the server-lifecycle service (Go): the lifecycle state
machine (`internal/util/util.go`), the lifecycle-log helpers, the IP allocator,
the provisioning/terminate/reboot service operations and the billing/reaper
daemon, together with proofs about them.

Conventions of the embedding:
* Go strings stay `String`; server statuses are the literal status strings.
* Database tables (`servers`, `ip_addresses`) are lists of rows inside a `Db`
  structure; sqlc `:one` queries return `Option` (none = `pgx.ErrNoRows` /
  statement error), `:exec` queries return the updated `Db`.
* `ORDER BY created_at ASC` is modelled by list order (rows are appended in
  creation order), so "first free row" is `List.find?`.
* Go `float64` money values are modelled as `ℚ` (no claim depends on float
  rounding).
* Store failures that the Go code can observe (a failing INSERT, a failing
  UPDATE, a failing log append) are explicit boolean knobs passed to the
  operation that the corresponding call sites branch on.
* Calls into the IP allocator are additionally recorded in an event trace so
  that "the operation released / did not release an address" is expressible.
-/

namespace ServerLifecycle

/-- Server status constants from `internal/util/util.go`. -/
def ServerStatusProvisioning : String := "provisioning"

/-- Status string `"running"`. -/
def ServerStatusRunning : String := "running"

/-- Status string `"stopped"`. -/
def ServerStatusStopped : String := "stopped"

/-- Status string `"terminated"` (terminal). -/
def ServerStatusTerminated : String := "terminated"

/-- Go function `util.IsValidTransition` from `internal/util/util.go`: the Go `switch` on
the current status (the `terminated` case and the `default` case both return
`false`, collapsed into the final `else`). -/
def IsValidTransition (currentStatus desiredStatus : String) : Bool :=
  if currentStatus == ServerStatusProvisioning then
    desiredStatus == ServerStatusRunning || desiredStatus == ServerStatusTerminated
  else if currentStatus == ServerStatusRunning then
    desiredStatus == ServerStatusStopped || desiredStatus == ServerStatusTerminated
  else if currentStatus == ServerStatusStopped then
    desiredStatus == ServerStatusRunning || desiredStatus == ServerStatusTerminated
  else
    false

/-- The transition table of the spec (§4.2), as the list of allowed
(current, target) pairs. -/
def transitionTable : List (String × String) :=
  [(ServerStatusProvisioning, ServerStatusRunning),
   (ServerStatusProvisioning, ServerStatusTerminated),
   (ServerStatusRunning, ServerStatusStopped),
   (ServerStatusRunning, ServerStatusTerminated),
   (ServerStatusStopped, ServerStatusRunning),
   (ServerStatusStopped, ServerStatusTerminated)]

/-- One lifecycle-log entry: the Go code builds a JSON object with fields
`REQUEST_ID`, `ACTION`, `SERVER_ID`, `TIME`; we keep the four fields. -/
structure LogEntry where
  requestId : String
  action : String
  serverId : String
  time : String
deriving DecidableEq, Repr

/-- Byte length of the serialized JSON object of one log entry: the fixed
punctuation and key characters of
`\x7b"REQUEST_ID":"…","ACTION": "…","SERVER_ID":"…","TIME":"…"\x7d`
amount to 56 characters, plus the four field contents. -/
def logEntryByteLen (e : LogEntry) : Nat :=
  56 + e.requestId.length + e.action.length + e.serverId.length + e.time.length

/-- Byte length of the serialized JSONB array of a lifecycle log
(`[` + entries joined by `, ` + `]`): this is the `len(updatedLogs)` that the
Go helper `AppendServerLifecycleLogs` inspects on the `RETURNING
lifecycle_logs` bytes. -/
def lifecycleLogsByteLen : List LogEntry → Nat
  | [] => 2
  | e :: rest => lifecycleLogsByteLen rest + logEntryByteLen e + (if rest.isEmpty then 0 else 2)

/-- SQL `AppendServerLifecycleLog` (sql/servers.sql): the new entry is
prepended (`jsonb_build_array($1::jsonb) || lifecycle_logs`), so the log is
newest-first. -/
def AppendServerLifecycleLog (logs : List LogEntry) (entry : LogEntry) : List LogEntry :=
  entry :: logs

/-- SQL `EnforceLifecycleLogsLimit` (sql/servers.sql): when the array has more
than 100 elements it is replaced by `jsonb_path_query_array(lifecycle_logs,
'$[0 to 14]')`, i.e. the elements at indices 0 through 14 inclusive — the
first (= most recent) 15 entries. -/
def EnforceLifecycleLogsLimit (logs : List LogEntry) : List LogEntry :=
  if logs.length > 100 then logs.take 15 else logs

/-- Go helper `AppendServerLifecycleLogs` (services): append the entry, then,
if the byte length of the returned JSONB exceeds 100, run
`EnforceLifecycleLogsLimit`. (Both the `s.queries` and the `bd.queries`
branches of the Go function perform exactly these two store calls.) -/
def AppendServerLifecycleLogs (logs : List LogEntry) (entry : LogEntry) : List LogEntry :=
  let updated := AppendServerLifecycleLog logs entry
  if lifecycleLogsByteLen updated > 100 then EnforceLifecycleLogsLimit updated else updated

/-- A row of the `servers` table (migrations/schema.sql, sqlc `Server`). -/
structure Server where
  id : Nat
  name : String
  region : String
  status : String
  address : String
  serverType : String
  hourlyCost : ℚ
  uptimeSeconds : Int
  lastStatusUpdate : Int
  lifecycleLogs : List LogEntry
deriving DecidableEq, Repr

/-- A row of the `ip_addresses` table (migrations/schema.sql, sqlc
`IpAddress`). -/
structure IpAddress where
  id : Nat
  address : String
  isAllocated : Bool
  serverId : Option Nat
deriving DecidableEq, Repr

/-- The persistent store: both tables, rows in creation order. -/
structure Db where
  servers : List Server
  ipAddresses : List IpAddress
deriving DecidableEq, Repr

/-- sqlc `GetServer` (`:one`): the row whose id matches, or none
(`pgx.ErrNoRows`). -/
def GetServer (db : Db) (id : Nat) : Option Server :=
  db.servers.find? (fun s => s.id == id)

/-- sqlc `ListServers` (`:many`): all servers with the given status. -/
def ListServers (db : Db) (status : String) : List Server :=
  db.servers.filter (fun s => s.status == status)

/-- Helper shape shared by every `UPDATE servers ... WHERE id = $n` statement:
apply `f` to the rows whose id matches (leaving `ip_addresses` untouched). -/
def updateServerRow (db : Db) (id : Nat) (f : Server → Server) : Db :=
  { db with servers := db.servers.map (fun t => if t.id == id then f t else t) }

/-- sqlc `UpdateServerStatus` (`:one`): set `status` (and the update
timestamp) on the matching row, returning the updated row; none when no row
matches. -/
def UpdateServerStatus (db : Db) (id : Nat) (status : String) : Option (Server × Db) :=
  match db.servers.find? (fun s => s.id == id) with
  | none => none
  | some s =>
    some ({ s with status := status },
      updateServerRow db id (fun t => { t with status := status }))

/-- sqlc `UpdateServerUptime` (`:one`): set `uptime_seconds` on the matching
row. -/
def UpdateServerUptime (db : Db) (id : Nat) (uptimeSeconds : Int) : Option (Server × Db) :=
  match db.servers.find? (fun s => s.id == id) with
  | none => none
  | some s =>
    some ({ s with uptimeSeconds := uptimeSeconds },
      updateServerRow db id (fun t => { t with uptimeSeconds := uptimeSeconds }))

/-- sqlc `AppendServerLifecycleLog` (`:one`) at the `Db` level: prepend the
entry to the matching server's log, returning the updated log. -/
def AppendServerLifecycleLogDb (db : Db) (id : Nat) (entry : LogEntry) :
    Option (List LogEntry × Db) :=
  match db.servers.find? (fun s => s.id == id) with
  | none => none
  | some s =>
    some (AppendServerLifecycleLog s.lifecycleLogs entry,
      updateServerRow db id
        (fun t => { t with lifecycleLogs := AppendServerLifecycleLog t.lifecycleLogs entry }))

/-- sqlc `EnforceLifecycleLogsLimit` (`:exec`): truncate the matching server's
log when it has more than 100 entries; a non-matching id is a no-op. -/
def EnforceLifecycleLogsLimitDb (db : Db) (id : Nat) : Db :=
  updateServerRow db id
    (fun t => { t with lifecycleLogs := EnforceLifecycleLogsLimit t.lifecycleLogs })

/-- The Go helper `AppendServerLifecycleLogs` acting on the store: append,
then truncate when the returned JSONB byte length exceeds 100. Returns none
exactly when the append query fails (no matching row), mirroring the helper's
early `return err`. -/
def AppendServerLifecycleLogsDb (db : Db) (id : Nat) (entry : LogEntry) : Option Db :=
  match AppendServerLifecycleLogDb db id entry with
  | none => none
  | some (updatedLogs, db1) =>
    if lifecycleLogsByteLen updatedLogs > 100 then
      some (EnforceLifecycleLogsLimitDb db1 id)
    else
      some db1

/-- Best-effort log append as used by the service call sites: a failing append
is logged and ignored (`logFails` models the store rejecting the append). -/
def appendLogBestEffort (db : Db) (id : Nat) (entry : LogEntry) (logFails : Bool) : Db :=
  if logFails then db
  else
    match AppendServerLifecycleLogsDb db id entry with
    | none => db
    | some db1 => db1

/-- sqlc `GetAvailableIPForAllocation` (`:one`): first row (creation order =
`ORDER BY created_at ASC`) with `is_allocated = FALSE AND server_id IS NULL`.
A pure SELECT: it does not modify any row. -/
def GetAvailableIPForAllocation (db : Db) : Option IpAddress :=
  db.ipAddresses.find? (fun ip => ip.isAllocated == false && ip.serverId == none)

/-- sqlc `AllocateIPAddress` (`:one`): `SET is_allocated = TRUE, server_id =
$1 WHERE id = $2 AND is_allocated = FALSE AND server_id IS NULL`; none when no
row satisfies the WHERE clause. -/
def AllocateIPAddress (db : Db) (serverId : Nat) (id : Nat) : Option (IpAddress × Db) :=
  match db.ipAddresses.find? (fun ip =>
      ip.id == id && ip.isAllocated == false && ip.serverId == none) with
  | none => none
  | some ip =>
    some ({ ip with isAllocated := true, serverId := some serverId },
      { db with ipAddresses :=
          db.ipAddresses.map (fun p =>
            if p.id == id && p.isAllocated == false && p.serverId == none then
              { p with isAllocated := true, serverId := some serverId }
            else p) })

/-- sqlc `DeallocateIPAddress` (`:one`): `SET is_allocated = FALSE, server_id
= NULL WHERE id = $1`. -/
def DeallocateIPAddress (db : Db) (id : Nat) : Option (IpAddress × Db) :=
  match db.ipAddresses.find? (fun ip => ip.id == id) with
  | none => none
  | some ip =>
    some ({ ip with isAllocated := false, serverId := none },
      { db with ipAddresses :=
          db.ipAddresses.map (fun p =>
            if p.id == id then { p with isAllocated := false, serverId := none } else p) })

/-- sqlc `GetIPAddressByServerID` (`:one`): the row whose `server_id` matches;
none (`pgx.ErrNoRows`) when the server has no bound address. -/
def GetIPAddressByServerID (db : Db) (serverId : Nat) : Option IpAddress :=
  db.ipAddresses.find? (fun ip => ip.serverId == some serverId)

/-- Allocator-visible events, recorded so that theorems can state which
allocator actions an operation performed. -/
inductive AllocEvent where
  /-- Event: `GetAvailableIPForAllocation` selected this row (`AllocateIP`). -/
  | ipSelected (ipId : Nat)
  /-- Event: `AllocateIPAddress` bound this row to a server (`saveAllocatedIP`). -/
  | ipBound (ipId : Nat) (serverId : Nat)
  /-- Event: `DeallocateIPAddress` released this row. -/
  | ipReleased (ipId : Nat)
deriving DecidableEq, Repr

/-- Go method `ServerService.ProvisionNewServer`. Arguments beyond the request fields:
`pricing` is `config.ServerTypeWisePricing`; `createFails` models the store
rejecting the `CreateNewServer` INSERT; `newId` is the id the store assigns to
the inserted row; `reqId`/`timeStr` are the request id and wall-clock strings
used in log entries. Returns the result, the final store and the allocator
event trace. Control flow mirrors the Go function: select a free IP
(`AllocateIP`), look up the hourly cost (default 0.1), insert the row (name
suffixed with the address), bind the IP (`saveAllocatedIP`, errors only
logged), append the provisioning log entry (errors only logged). On a failing
INSERT the Go code returns the error immediately — it performs no deallocation
despite its own comment. -/
def ProvisionNewServer (db : Db) (pricing : List (String × ℚ))
    (name region serverType : String) (createFails : Bool) (newId : Nat)
    (reqId timeStr : String) : Except String Server × Db × List AllocEvent :=
  match GetAvailableIPForAllocation db with
  | none => (.error "failed to allocate IP address", db, [])
  | some allocatedIP =>
    let hourlyConst : ℚ :=
      match pricing.lookup serverType with
      | some p => p
      | none => 0.1
    if createFails then
      (.error "failed to create server", db, [.ipSelected allocatedIP.id])
    else
      let server : Server :=
        { id := newId
          name := name ++ "_" ++ allocatedIP.address
          region := region
          status := ServerStatusProvisioning
          address := allocatedIP.address
          serverType := serverType
          hourlyCost := hourlyConst
          uptimeSeconds := 0
          lastStatusUpdate := 0
          lifecycleLogs := [] }
      let db1 : Db := { db with servers := db.servers ++ [server] }
      match AllocateIPAddress db1 server.id allocatedIP.id with
      | none =>
        let db2 :=
          match AppendServerLifecycleLogDb db1 server.id
              ⟨reqId, "Server provisioned successfully", toString server.id, timeStr⟩ with
          | none => db1
          | some (_, d) => d
        (.ok server, db2, [.ipSelected allocatedIP.id])
      | some (_, db2) =>
        let db3 :=
          match AppendServerLifecycleLogDb db2 server.id
              ⟨reqId, "Server provisioned successfully", toString server.id, timeStr⟩ with
          | none => db2
          | some (_, d) => d
        (.ok server, db3, [.ipSelected allocatedIP.id, .ipBound allocatedIP.id server.id])

/-- Go method `ServerService.StartServer`: guard with `IsValidTransition`, update the
status, append a best-effort log entry. -/
def StartServer (db : Db) (server : Server) (logFails : Bool)
    (reqId timeStr : String) : Except String Server × Db :=
  if !IsValidTransition server.status ServerStatusRunning then
    (.error ("invalid state transition from " ++ server.status ++ " to " ++ ServerStatusRunning), db)
  else
    match UpdateServerStatus db server.id ServerStatusRunning with
    | none => (.error "failed to update server status to running", db)
    | some (updatedServer, db1) =>
      (.ok updatedServer,
        appendLogBestEffort db1 server.id
          ⟨reqId, "Server start initiated", toString server.id, timeStr⟩ logFails)

/-- Go method `ServerService.StopServer`: same shape as `StartServer` with target
status `stopped`. -/
def StopServer (db : Db) (server : Server) (logFails : Bool)
    (reqId timeStr : String) : Except String Server × Db :=
  if !IsValidTransition server.status ServerStatusStopped then
    (.error ("invalid state transition from " ++ server.status ++ " to " ++ ServerStatusStopped), db)
  else
    match UpdateServerStatus db server.id ServerStatusStopped with
    | none => (.error "failed to update server status to stopped", db)
    | some (updatedServer, db1) =>
      (.ok updatedServer,
        appendLogBestEffort db1 server.id
          ⟨reqId, "Server stop initiated", toString server.id, timeStr⟩ logFails)

/-- Go method `ServerService.RebootServer`: only a `terminated` server is rejected;
otherwise a best-effort reboot log entry is appended and the status is set
directly to `running`. -/
def RebootServer (db : Db) (server : Server) (logFails : Bool)
    (reqId timeStr : String) : Except String Server × Db :=
  if server.status == ServerStatusTerminated then
    (.error ("invalid state transition: cannot reboot from " ++ server.status), db)
  else
    let db1 := appendLogBestEffort db server.id
      ⟨reqId, "Server reboot initiated", toString server.id, timeStr⟩ logFails
    match UpdateServerStatus db1 server.id ServerStatusRunning with
    | none => (.error "failed to update server status to running after reboot", db1)
    | some (updatedServer, db2) => (.ok updatedServer, db2)

/-- Go method `ServerService.TerminateServer`: guard with `IsValidTransition`; persist
the `terminated` status; then fetch the bound address
(`GetIPAddressByServerID`) and deallocate it (`DeallocateIPAddress`) — both
are hard failures of the operation; then append a best-effort log entry and
re-fetch the server. `deallocFails` models the store rejecting the deallocate
UPDATE; `logFails` models the store rejecting the log append. -/
def TerminateServer (db : Db) (server : Server) (deallocFails logFails : Bool)
    (reqId timeStr : String) : Except String Server × Db × List AllocEvent :=
  if !IsValidTransition server.status ServerStatusTerminated then
    (.error ("invalid state transition from " ++ server.status ++ " to " ++ ServerStatusTerminated),
      db, [])
  else
    match UpdateServerStatus db server.id ServerStatusTerminated with
    | none => (.error "failed to update server status to terminated", db, [])
    | some (_, db1) =>
      match GetIPAddressByServerID db1 server.id with
      | none => (.error "failed to get IP address by server ID", db1, [])
      | some ipData =>
        if deallocFails then
          (.error "failed to deallocate IP address", db1, [])
        else
          match DeallocateIPAddress db1 ipData.id with
          | none => (.error "failed to deallocate IP address", db1, [])
          | some (_, db2) =>
            let db3 := appendLogBestEffort db2 server.id
              ⟨reqId, "Server terminated", toString server.id, timeStr⟩ logFails
            match GetServer db3 server.id with
            | none => (.error "failed to re-fetch terminated server", db3, [.ipReleased ipData.id])
            | some updatedServer => (.ok updatedServer, db3, [.ipReleased ipData.id])

/-- One server's share of `BillingDaemon.processBilling`: compute the new
cumulative uptime from the seconds elapsed since `last_status_update`
(`now - lastStatusUpdate`, whole seconds as in
`elapsed.Nanoseconds()/int64(time.Second)`), persist it (a failing update is
only logged), append a best-effort "uptime updated" entry, and — when the new
uptime strictly exceeds 1800 and the server is not already terminated — set
the status to `terminated` and append a best-effort timeout entry. No
allocator call is made anywhere in this function. -/
def processBillingServer (db : Db) (now : Int) (reqId timeStr : String)
    (server : Server) : Db :=
  let elapsed := now - server.lastStatusUpdate
  let newUptimeSeconds := server.uptimeSeconds + elapsed
  let db1 :=
    match UpdateServerUptime db server.id newUptimeSeconds with
    | none => db
    | some (_, d) => d
  let db2 :=
    match AppendServerLifecycleLogsDb db1 server.id
        ⟨reqId, "Server uptime updated", toString server.id, timeStr⟩ with
    | none => db1
    | some d => d
  if newUptimeSeconds > 1800 && server.status != ServerStatusTerminated then
    match UpdateServerStatus db2 server.id ServerStatusTerminated with
    | none => db2
    | some (_, db3) =>
      match AppendServerLifecycleLogsDb db3 server.id
          ⟨reqId, "Timeout detected, server status updated to terminated", toString server.id, timeStr⟩ with
      | none => db3
      | some d => d
  else db2

/-- One tick of `BillingDaemon.processBilling`: list the `running` servers,
then process each in turn over the evolving store. -/
def processBilling (db : Db) (now : Int) (reqId timeStr : String) : Db :=
  (ListServers db ServerStatusRunning).foldl
    (fun d srv => processBillingServer d now reqId timeStr srv) db

/-- The pool-population loop of `IPAllocator.TerminateAllServers`: IPv4
addresses are modelled as naturals; the loop starts at the prefix's own
address `base` and visits the block's addresses in ascending order
(`addr = addr.Next()` while `prefix.Contains(addr)`), skipping every excluded
address and the base address itself, and inserting the rest. `fuel` is the
number of addresses left in the block. -/
def populatePoolLoop (exclude : List Nat) (base : Nat) : Nat → Nat → List Nat
  | _, 0 => []
  | addr, fuel + 1 =>
    if exclude.contains addr || addr == base then
      populatePoolLoop exclude base (addr + 1) fuel
    else
      addr :: populatePoolLoop exclude base (addr + 1) fuel

/-- The addresses `IPAllocator.TerminateAllServers` inserts into the cleared
pool for a block of `size` addresses starting at `base` with the given
exclusion list. -/
def TerminateAllServersPool (base size : Nat) (exclude : List Nat) : List Nat :=
  populatePoolLoop exclude base base size

/-- Concrete log entry used in witnesses and counterexamples. -/
def exEntry : LogEntry := ⟨"", "Server uptime updated", "1", ""⟩

/-- Concrete running server bound to address `10.0.0.1`. -/
def exServerRunning : Server :=
  ⟨1, "web1_10.0.0.1", "us-east-1", ServerStatusRunning, "10.0.0.1", "t2.micro", 1/10, 0, 0, []⟩

/-- Concrete stopped server. -/
def exServerStopped : Server :=
  ⟨2, "web2_10.0.0.2", "us-east-1", ServerStatusStopped, "10.0.0.2", "t2.micro", 1/10, 0, 0, []⟩

/-- Concrete terminated server. -/
def exServerTerminated : Server :=
  ⟨3, "web3_10.0.0.3", "us-east-1", ServerStatusTerminated, "10.0.0.3", "t2.micro", 1/10, 0, 0, []⟩

/-- Address row bound to `exServerRunning`. -/
def exIpBound : IpAddress := ⟨5, "10.0.0.1", true, some 1⟩

/-- Free address row. -/
def exIpFree : IpAddress := ⟨6, "10.0.0.9", false, none⟩

/-- Address row bound to `exServerStopped`. -/
def exIpBoundStopped : IpAddress := ⟨7, "10.0.0.2", true, some 2⟩

/-- Store with one running server and its bound address. -/
def exDbBound : Db := ⟨[exServerRunning], [exIpBound]⟩

/-- Store with one stopped server and no address row at all (no bound
address). -/
def exDbStoppedUnbound : Db := ⟨[exServerStopped], []⟩

/-- Store with one stopped server and its bound address. -/
def exDbStoppedBound : Db := ⟨[exServerStopped], [exIpBoundStopped]⟩

/-- Store with no servers and one free address. -/
def exDbFree : Db := ⟨[], [exIpFree]⟩

/-- Example pricing table (`config.ServerTypeWisePricing`). -/
def exPricing : List (String × ℚ) := [("t2.micro", 2/10)]

/-- Store with one terminated server and no address rows. -/
def exDbTerminated : Db := ⟨[exServerTerminated], []⟩

/-- Updating rows by id leaves `ip_addresses` untouched. -/
theorem ipAddresses_updateServerRow (db : Db) (id : Nat) (f : Server → Server) :
    (updateServerRow db id f).ipAddresses = db.ipAddresses := rfl

/-- Row lookup after an id-targeted update: the found row is the updated found
row, provided the update does not change ids. -/
theorem find?_updateServerRow_some {db : Db} {id : Nat} {s : Server} (f : Server → Server)
    (hf : ∀ t, (f t).id = t.id)
    (h : db.servers.find? (fun t => t.id == id) = some s) :
    (updateServerRow db id f).servers.find? (fun t => t.id == id) = some (f s) := by
  have hcomp : ((fun t : Server => t.id == id) ∘ (fun t => if t.id == id then f t else t))
      = (fun t : Server => t.id == id) := by
    funext t
    by_cases ht : (t.id == id) = true
    · simp [Function.comp, ht, hf]
    · simp [Function.comp, ht]
  have hp := List.find?_some h
  simp only [updateServerRow, List.find?_map, hcomp, h, Option.map_some']
  simp only at hp
  simp [hp]

/-- Behaviour of the Go log helper on the store when the server row exists:
the append succeeds and the row's log becomes
`AppendServerLifecycleLogs` of the old log. -/
theorem AppendServerLifecycleLogsDb_find? {db : Db} {id : Nat} {s : Server} (entry : LogEntry)
    (h : db.servers.find? (fun t => t.id == id) = some s) :
    ∃ db', AppendServerLifecycleLogsDb db id entry = some db'
      ∧ db'.ipAddresses = db.ipAddresses
      ∧ db'.servers.find? (fun t => t.id == id) =
          some { s with lifecycleLogs := AppendServerLifecycleLogs s.lifecycleLogs entry } := by
  have h1 := find?_updateServerRow_some
    (fun t => { t with lifecycleLogs := AppendServerLifecycleLog t.lifecycleLogs entry })
    (fun _ => rfl) h
  simp only [AppendServerLifecycleLogsDb, AppendServerLifecycleLogDb, h]
  by_cases hguard : lifecycleLogsByteLen (AppendServerLifecycleLog s.lifecycleLogs entry) > 100
  · rw [if_pos hguard]
    refine ⟨_, rfl, ?_, ?_⟩
    · simp [EnforceLifecycleLogsLimitDb, ipAddresses_updateServerRow]
    · have h2 := find?_updateServerRow_some
        (fun t => { t with lifecycleLogs := EnforceLifecycleLogsLimit t.lifecycleLogs })
        (fun _ => rfl) h1
      simpa [EnforceLifecycleLogsLimitDb, AppendServerLifecycleLogs, hguard] using h2
  · rw [if_neg hguard]
    refine ⟨_, rfl, ?_, ?_⟩
    · simp [ipAddresses_updateServerRow]
    · simpa [AppendServerLifecycleLogs, hguard] using h1

/-- Best-effort log append preserves the found row up to its log field and
leaves `ip_addresses` untouched. -/
theorem appendLogBestEffort_find? {db : Db} {id : Nat} {s : Server} (entry : LogEntry)
    (logFails : Bool)
    (h : db.servers.find? (fun t => t.id == id) = some s) :
    ∃ s', (appendLogBestEffort db id entry logFails).servers.find? (fun t => t.id == id) = some s'
      ∧ s'.status = s.status
      ∧ (appendLogBestEffort db id entry logFails).ipAddresses = db.ipAddresses := by
  cases logFails with
  | true => exact ⟨s, by simpa [appendLogBestEffort] using h, rfl, rfl⟩
  | false =>
    obtain ⟨db', hdb', hip', hfind'⟩ := AppendServerLifecycleLogsDb_find? entry h
    refine ⟨{ s with lifecycleLogs := AppendServerLifecycleLogs s.lifecycleLogs entry }, ?_, rfl, ?_⟩
    · simp [appendLogBestEffort, hdb', hfind']
    · simp [appendLogBestEffort, hdb', hip']

/-- C1: the lifecycle state machine accepts a transition iff the
(current, target) pair is in the table {Provisioning→Running,
Provisioning→Terminated, Running→Stopped, Running→Terminated,
Stopped→Running, Stopped→Terminated}; every transition out of Terminated and
every self-transition is rejected, and the service operations reject an
invalid transition with an error naming the current and the requested
status. -/
theorem c1_transition_table_iff :
    (∀ cur tgt : String, IsValidTransition cur tgt = true ↔ (cur, tgt) ∈ transitionTable)
    ∧ (∀ tgt : String, IsValidTransition ServerStatusTerminated tgt = false)
    ∧ (∀ st : String, IsValidTransition st st = false)
    ∧ (∀ (db : Db) (server : Server) (deallocFails logFails : Bool) (reqId timeStr : String),
        IsValidTransition server.status ServerStatusTerminated = false →
        (TerminateServer db server deallocFails logFails reqId timeStr).1 =
          Except.error ("invalid state transition from " ++ server.status ++ " to " ++ ServerStatusTerminated))
    ∧ (∀ (db : Db) (server : Server) (logFails : Bool) (reqId timeStr : String),
        IsValidTransition server.status ServerStatusRunning = false →
        (StartServer db server logFails reqId timeStr).1 =
          Except.error ("invalid state transition from " ++ server.status ++ " to " ++ ServerStatusRunning))
    ∧ (∀ (db : Db) (server : Server) (logFails : Bool) (reqId timeStr : String),
        IsValidTransition server.status ServerStatusStopped = false →
        (StopServer db server logFails reqId timeStr).1 =
          Except.error ("invalid state transition from " ++ server.status ++ " to " ++ ServerStatusStopped)) := by
  refine ⟨?_, ?_, ?_, ?_, ?_, ?_⟩
  · intro cur tgt
    simp only [IsValidTransition, transitionTable, ServerStatusProvisioning, ServerStatusRunning,
      ServerStatusStopped, ServerStatusTerminated, List.mem_cons, List.not_mem_nil, or_false,
      Prod.mk.injEq]
    by_cases h1 : cur = "provisioning"
    · subst h1; simp
    · by_cases h2 : cur = "running"
      · subst h2; simp
      · by_cases h3 : cur = "stopped"
        · subst h3; simp
        · simp [h1, h2, h3]
  · intro tgt
    simp [IsValidTransition, ServerStatusProvisioning, ServerStatusRunning, ServerStatusStopped,
      ServerStatusTerminated]
  · intro st
    simp only [IsValidTransition, ServerStatusProvisioning, ServerStatusRunning,
      ServerStatusStopped, ServerStatusTerminated]
    by_cases h1 : st = "provisioning"
    · subst h1; simp
    · by_cases h2 : st = "running"
      · subst h2; simp
      · by_cases h3 : st = "stopped"
        · subst h3; simp
        · simp [h1, h2, h3]
  · intro db server deallocFails logFails reqId timeStr h
    simp [TerminateServer, h]
  · intro db server logFails reqId timeStr h
    simp [StartServer, h]
  · intro db server logFails reqId timeStr h
    simp [StopServer, h]

/-- Witness for C1: the rejection clauses applied at concrete servers — a
terminate request on a terminated server, a start request on a running
server (self-transition) and a stop request on a stopped server
(self-transition) all return the invalid-transition error. -/
theorem c1_transition_table_iff_witness :
    (TerminateServer exDbBound exServerTerminated false false "" "").1 =
      Except.error ("invalid state transition from " ++ exServerTerminated.status ++ " to " ++ ServerStatusTerminated)
    ∧ (StartServer exDbBound exServerRunning false "" "").1 =
      Except.error ("invalid state transition from " ++ exServerRunning.status ++ " to " ++ ServerStatusRunning)
    ∧ (StopServer exDbBound exServerStopped false "" "").1 =
      Except.error ("invalid state transition from " ++ exServerStopped.status ++ " to " ++ ServerStatusStopped) :=
  ⟨c1_transition_table_iff.2.2.2.1 exDbBound exServerTerminated false false "" "" (by decide),
   c1_transition_table_iff.2.2.2.2.1 exDbBound exServerRunning false "" "" (by decide),
   c1_transition_table_iff.2.2.2.2.2 exDbBound exServerStopped false "" "" (by decide)⟩

/-- Counterexample to C2 as stated: at a store with one free address
(id 6) and a failing row creation, `ProvisionNewServer` returns the store
error but its allocator trace is exactly the selection event — it contains no
release event, so the claimed "releases the selected address back to the pool
before returning the error" does not happen. -/
theorem c2_counterexample :
    (ProvisionNewServer exDbFree exPricing "web1" "us-east-1" "t2.micro" true 7 "" "").1 =
      Except.error "failed to create server"
    ∧ (ProvisionNewServer exDbFree exPricing "web1" "us-east-1" "t2.micro" true 7 "" "").2.2 =
        [AllocEvent.ipSelected 6]
    ∧ (ProvisionNewServer exDbFree exPricing "web1" "us-east-1" "t2.micro" true 7 "" "").2.1 =
        exDbFree := by
  refine ⟨rfl, rfl, rfl⟩

/-- C2 (amended): when an address has been selected and the server-row
creation fails, `ProvisionNewServer` returns the error without issuing any
release call (its allocator trace is exactly the selection event); the store
is unchanged, so the selected address — which selection never marked
allocated — is still observably free and does not leak. -/
theorem c2_provision_store_failure (db : Db) (pricing : List (String × ℚ))
    (name region serverType : String) (newId : Nat) (reqId timeStr : String)
    (ip : IpAddress) (hip : GetAvailableIPForAllocation db = some ip) :
    (ProvisionNewServer db pricing name region serverType true newId reqId timeStr).1 =
      Except.error "failed to create server"
    ∧ (ProvisionNewServer db pricing name region serverType true newId reqId timeStr).2.1 = db
    ∧ (ProvisionNewServer db pricing name region serverType true newId reqId timeStr).2.2 =
        [AllocEvent.ipSelected ip.id] := by
  refine ⟨?_, ?_, ?_⟩ <;> simp [ProvisionNewServer, hip]

/-- Witness for C2 (amended), at the concrete store `exDbFree`. -/
theorem c2_provision_store_failure_witness :
    (ProvisionNewServer exDbFree exPricing "web1" "us-east-1" "t2.micro" true 7 "" "").1 =
      Except.error "failed to create server"
    ∧ (ProvisionNewServer exDbFree exPricing "web1" "us-east-1" "t2.micro" true 7 "" "").2.1 =
        exDbFree
    ∧ (ProvisionNewServer exDbFree exPricing "web1" "us-east-1" "t2.micro" true 7 "" "").2.2 =
        [AllocEvent.ipSelected exIpFree.id] :=
  c2_provision_store_failure exDbFree exPricing "web1" "us-east-1" "t2.micro" 7 "" "" exIpFree rfl

/-- Appending through the Go helper always leaves the appended entry at the
head of the log (truncation keeps a non-empty prefix). -/
theorem AppendServerLifecycleLogs_head? (logs : List LogEntry) (e : LogEntry) :
    (AppendServerLifecycleLogs logs e).head? = some e := by
  show (if lifecycleLogsByteLen (e :: logs) > 100
      then EnforceLifecycleLogsLimit (e :: logs) else (e :: logs)).head? = some e
  unfold EnforceLifecycleLogsLimit
  split
  · split
    · rfl
    · rfl
  · rfl

/-- Equation form of `UpdateServerStatus` when the row is found. -/
theorem UpdateServerStatus_eq {db : Db} {id : Nat} {s : Server} (st : String)
    (h : db.servers.find? (fun t => t.id == id) = some s) :
    UpdateServerStatus db id st =
      some ({ s with status := st }, updateServerRow db id (fun t => { t with status := st })) := by
  simp [UpdateServerStatus, h]

/-- Equation form of `UpdateServerUptime` when the row is found. -/
theorem UpdateServerUptime_eq {db : Db} {id : Nat} {s : Server} (u : Int)
    (h : db.servers.find? (fun t => t.id == id) = some s) :
    UpdateServerUptime db id u =
      some ({ s with uptimeSeconds := u }, updateServerRow db id (fun t => { t with uptimeSeconds := u })) := by
  simp [UpdateServerUptime, h]

/-- Characterisation of one reaper step (`processBillingServer`) on a running
server: the server row survives, its status becomes `terminated` exactly when
the newly computed cumulative uptime strictly exceeds 1800 seconds (otherwise
it stays `running`), no `ip_addresses` row is touched, and in the termination
case the newest log entry is the timeout entry. -/
theorem processBillingServer_char {db : Db} {server : Server} (now : Int) (reqId timeStr : String)
    (hfind : GetServer db server.id = some server)
    (hrun : server.status = ServerStatusRunning) :
    ∃ s', GetServer (processBillingServer db now reqId timeStr server) server.id = some s'
      ∧ s'.status = (if server.uptimeSeconds + (now - server.lastStatusUpdate) > 1800
          then ServerStatusTerminated else ServerStatusRunning)
      ∧ (processBillingServer db now reqId timeStr server).ipAddresses = db.ipAddresses
      ∧ (server.uptimeSeconds + (now - server.lastStatusUpdate) > 1800 →
          s'.lifecycleLogs.head?.map LogEntry.action =
            some "Timeout detected, server status updated to terminated") := by
  have hfind0 : db.servers.find? (fun t => t.id == server.id) = some server := hfind
  have hupdEq := UpdateServerUptime_eq
      (server.uptimeSeconds + (now - server.lastStatusUpdate)) hfind0
  have h1 := find?_updateServerRow_some
      (fun t => { t with uptimeSeconds := server.uptimeSeconds + (now - server.lastStatusUpdate) })
      (fun _ => rfl) hfind0
  obtain ⟨db2, hdb2, hip2, hfind2⟩ := AppendServerLifecycleLogsDb_find?
      (⟨reqId, "Server uptime updated", toString server.id, timeStr⟩ : LogEntry) h1
  by_cases hcase : server.uptimeSeconds + (now - server.lastStatusUpdate) > 1800
  · have hstEq := UpdateServerStatus_eq ServerStatusTerminated hfind2
    have h3 := find?_updateServerRow_some (fun t => { t with status := ServerStatusTerminated })
        (fun _ => rfl) hfind2
    obtain ⟨db4, hdb4, hip4, hfind4⟩ := AppendServerLifecycleLogsDb_find?
        (⟨reqId, "Timeout detected, server status updated to terminated", toString server.id, timeStr⟩ : LogEntry) h3
    have hres : processBillingServer db now reqId timeStr server = db4 := by
      simp only [processBillingServer, hupdEq, hdb2, hstEq, hdb4]
      simp [hcase, hrun, ServerStatusRunning, ServerStatusTerminated]
    unfold GetServer
    rw [hres]
    refine ⟨_, hfind4, ?_, ?_, ?_⟩
    · simp [hcase]
    · rw [hip4, ipAddresses_updateServerRow, hip2, ipAddresses_updateServerRow]
    · intro _
      simp [AppendServerLifecycleLogs_head?]
  · have hres : processBillingServer db now reqId timeStr server = db2 := by
      simp only [processBillingServer, hupdEq, hdb2]
      simp [hcase]
    unfold GetServer
    rw [hres]
    refine ⟨_, hfind2, ?_, ?_, ?_⟩
    · simp [hcase, hrun]
    · rw [hip2, ipAddresses_updateServerRow]
    · intro hc
      exact absurd hc hcase

/-- Counterexample to C3 as stated: at a store with one running server (id 1,
uptime overdue) and its bound address row (id 5, allocated, owned by server
1), a billing tick force-terminates the server and appends the timeout entry,
but the address row is returned unchanged — still allocated and still owned —
so the daemon does not release the server's bound address. -/
theorem c3_counterexample :
    (GetServer (processBilling exDbBound 2000 "" "") 1).map Server.status =
      some ServerStatusTerminated
    ∧ ((GetServer (processBilling exDbBound 2000 "" "") 1).map
        (fun s => s.lifecycleLogs.head?.map LogEntry.action)) =
        some (some "Timeout detected, server status updated to terminated")
    ∧ (processBilling exDbBound 2000 "" "").ipAddresses =
        [{ id := 5, address := "10.0.0.1", isAllocated := true, serverId := some 1 }] :=
  ⟨rfl, rfl, rfl⟩

/-- C3 (amended): on a billing tick, a running server whose newly computed
cumulative uptime exceeds 1800 seconds is force-transitioned to `terminated`
and a "timeout" lifecycle-log entry is appended, but the daemon performs no
allocator release: the `ip_addresses` table is exactly the one it started
with, so the server's bound address stays allocated. -/
theorem c3_reaper_terminates_without_release {db : Db} {server : Server} (now : Int)
    (reqId timeStr : String)
    (hfind : GetServer db server.id = some server)
    (hrun : server.status = ServerStatusRunning)
    (hup : server.uptimeSeconds + (now - server.lastStatusUpdate) > 1800) :
    ∃ s', GetServer (processBillingServer db now reqId timeStr server) server.id = some s'
      ∧ s'.status = ServerStatusTerminated
      ∧ s'.lifecycleLogs.head?.map LogEntry.action =
          some "Timeout detected, server status updated to terminated"
      ∧ (processBillingServer db now reqId timeStr server).ipAddresses = db.ipAddresses := by
  obtain ⟨s', h1, h2, h3, h4⟩ := processBillingServer_char now reqId timeStr hfind hrun
  exact ⟨s', h1, by simpa [hup] using h2, h4 hup, h3⟩

/-- Witness for C3 (amended) at the concrete store `exDbBound`. -/
theorem c3_reaper_terminates_without_release_witness :
    ∃ s', GetServer (processBillingServer exDbBound 2000 "" "" exServerRunning)
        exServerRunning.id = some s'
      ∧ s'.status = ServerStatusTerminated
      ∧ s'.lifecycleLogs.head?.map LogEntry.action =
          some "Timeout detected, server status updated to terminated"
      ∧ (processBillingServer exDbBound 2000 "" "" exServerRunning).ipAddresses =
          exDbBound.ipAddresses :=
  @c3_reaper_terminates_without_release exDbBound exServerRunning 2000 "" "" rfl rfl (by decide)

/-- C7: the reaper threshold is strict — a running server whose newly
computed cumulative uptime is exactly 1800 seconds is left running by the
tick, while one strictly above 1800 is terminated. -/
theorem c7_reaper_threshold_strict {db : Db} {server : Server} (now : Int) (reqId timeStr : String)
    (hfind : GetServer db server.id = some server)
    (hrun : server.status = ServerStatusRunning) :
    (server.uptimeSeconds + (now - server.lastStatusUpdate) = 1800 →
      ∃ s', GetServer (processBillingServer db now reqId timeStr server) server.id = some s'
        ∧ s'.status = ServerStatusRunning)
    ∧ (server.uptimeSeconds + (now - server.lastStatusUpdate) > 1800 →
      ∃ s', GetServer (processBillingServer db now reqId timeStr server) server.id = some s'
        ∧ s'.status = ServerStatusTerminated) := by
  obtain ⟨s', h1, h2, _, _⟩ := processBillingServer_char now reqId timeStr hfind hrun
  constructor
  · intro heq
    refine ⟨s', h1, ?_⟩
    rw [h2, if_neg (by omega)]
  · intro hgt
    exact ⟨s', h1, by rwa [if_pos hgt] at h2⟩

/-- Witness for C7: the server last updated at time 0 with zero accumulated
uptime is not terminated by a tick at time 1800 but is terminated by a tick at
time 1801. -/
theorem c7_reaper_threshold_strict_witness :
    (∃ s', GetServer (processBillingServer exDbBound 1800 "" "" exServerRunning)
        exServerRunning.id = some s' ∧ s'.status = ServerStatusRunning)
    ∧ (∃ s', GetServer (processBillingServer exDbBound 1801 "" "" exServerRunning)
        exServerRunning.id = some s' ∧ s'.status = ServerStatusTerminated) :=
  ⟨(@c7_reaper_threshold_strict exDbBound exServerRunning 1800 "" "" rfl rfl).1 (by decide),
   (@c7_reaper_threshold_strict exDbBound exServerRunning 1801 "" "" rfl rfl).2 (by decide)⟩

/-- Serialized byte length grows at least linearly in the entry count (each
serialized entry occupies at least its 56 fixed characters). -/
theorem lifecycleLogsByteLen_ge (logs : List LogEntry) :
    2 + 56 * logs.length ≤ lifecycleLogsByteLen logs := by
  induction logs with
  | nil => simp [lifecycleLogsByteLen]
  | cons e rest ih =>
    have he : 56 ≤ logEntryByteLen e := by unfold logEntryByteLen; omega
    simp only [lifecycleLogsByteLen, List.length_cons]
    split <;> omega

/-- C4 (amended): appending to a log of fewer than 100 entries performs no
truncation; appending the 101st entry truncates the log to exactly the most
recent 15 entries (`$[0 to 14]` keeps indices 0–14); consequently a log that
respected the 100-entry cap still respects it after any append. -/
theorem c4_log_cap_truncation (logs : List LogEntry) (e : LogEntry) :
    (logs.length < 100 → AppendServerLifecycleLogs logs e = e :: logs)
    ∧ (logs.length = 100 →
        AppendServerLifecycleLogs logs e = (e :: logs).take 15
        ∧ (AppendServerLifecycleLogs logs e).length = 15)
    ∧ (logs.length ≤ 100 → (AppendServerLifecycleLogs logs e).length ≤ 100) := by
  have hb := lifecycleLogsByteLen_ge (e :: logs)
  have part1 : logs.length < 100 → AppendServerLifecycleLogs logs e = e :: logs := by
    intro h
    show (if lifecycleLogsByteLen (e :: logs) > 100
        then EnforceLifecycleLogsLimit (e :: logs) else (e :: logs)) = e :: logs
    unfold EnforceLifecycleLogsLimit
    have hlen : ¬((e :: logs).length > 100) := by simp; omega
    rw [if_neg hlen]
    split <;> rfl
  have part2 : logs.length = 100 →
      AppendServerLifecycleLogs logs e = (e :: logs).take 15
      ∧ (AppendServerLifecycleLogs logs e).length = 15 := by
    intro h
    have hlen101 : (e :: logs).length = 101 := by simp [h]
    have hguard : lifecycleLogsByteLen (e :: logs) > 100 := by omega
    have hlen : (e :: logs).length > 100 := by omega
    have heq : AppendServerLifecycleLogs logs e = (e :: logs).take 15 := by
      show (if lifecycleLogsByteLen (e :: logs) > 100
          then EnforceLifecycleLogsLimit (e :: logs) else (e :: logs)) = (e :: logs).take 15
      rw [if_pos hguard]
      unfold EnforceLifecycleLogsLimit
      rw [if_pos hlen]
    refine ⟨heq, ?_⟩
    rw [heq, List.length_take]
    omega
  have part3 : logs.length ≤ 100 → (AppendServerLifecycleLogs logs e).length ≤ 100 := by
    intro h
    rcases Nat.lt_or_ge logs.length 100 with hlt | hge
    · rw [part1 hlt]
      simp
      omega
    · have h100 : logs.length = 100 := Nat.le_antisymm h hge
      have := (part2 h100).2
      omega
  exact ⟨part1, part2, part3⟩

/-- Witness for C4 (amended): a log of 100 concrete entries truncates to 15
on the next append, and a log of 99 concrete entries does not truncate. -/
theorem c4_log_cap_truncation_witness :
    AppendServerLifecycleLogs (List.replicate 100 exEntry) exEntry =
      (exEntry :: List.replicate 100 exEntry).take 15
    ∧ (AppendServerLifecycleLogs (List.replicate 100 exEntry) exEntry).length = 15
    ∧ AppendServerLifecycleLogs (List.replicate 99 exEntry) exEntry =
        exEntry :: List.replicate 99 exEntry :=
  ⟨((c4_log_cap_truncation (List.replicate 100 exEntry) exEntry).2.1 (by simp)).1,
   ((c4_log_cap_truncation (List.replicate 100 exEntry) exEntry).2.1 (by simp)).2,
   (c4_log_cap_truncation (List.replicate 99 exEntry) exEntry).1 (by simp)⟩

set_option maxRecDepth 4000 in
/-- Counterexample to C4 as stated: appending the 101st entry leaves a log of
15 entries — not 14 — because the truncation path `$[0 to 14]` is inclusive
on both ends. -/
theorem c4_counterexample :
    (AppendServerLifecycleLogs (List.replicate 100 exEntry) exEntry).length = 15
    ∧ (AppendServerLifecycleLogs (List.replicate 100 exEntry) exEntry).length ≠ 14 := by
  have h15 : (AppendServerLifecycleLogs (List.replicate 100 exEntry) exEntry).length = 15 := by
    decide
  exact ⟨h15, by omega⟩

/-- Equation form of `DeallocateIPAddress` when the row is found. -/
theorem DeallocateIPAddress_eq {db : Db} {id : Nat} {p : IpAddress}
    (h : db.ipAddresses.find? (fun q => q.id == id) = some p) :
    DeallocateIPAddress db id =
      some ({ p with isAllocated := false, serverId := none },
        { db with ipAddresses := db.ipAddresses.map (fun q =>
            if q.id == id then { q with isAllocated := false, serverId := none } else q) }) := by
  simp [DeallocateIPAddress, h]

/-- Error path of `TerminateServer` when the server has no bound address: the
operation fails on the fetch, after the terminated status has already been
persisted, and no release event is emitted. -/
theorem TerminateServer_fetch_error {db : Db} {server : Server}
    (deallocFails logFails : Bool) (reqId timeStr : String)
    (hfind : GetServer db server.id = some server)
    (hvalid : IsValidTransition server.status ServerStatusTerminated = true)
    (hip : GetIPAddressByServerID db server.id = none) :
    (TerminateServer db server deallocFails logFails reqId timeStr).1 =
      Except.error "failed to get IP address by server ID"
    ∧ GetServer (TerminateServer db server deallocFails logFails reqId timeStr).2.1 server.id =
        some { server with status := ServerStatusTerminated }
    ∧ (TerminateServer db server deallocFails logFails reqId timeStr).2.2 = [] := by
  have hfind0 : db.servers.find? (fun t => t.id == server.id) = some server := hfind
  have hstEq := UpdateServerStatus_eq ServerStatusTerminated hfind0
  have h1 := find?_updateServerRow_some (fun t => { t with status := ServerStatusTerminated })
      (fun _ => rfl) hfind0
  have hipeq : GetIPAddressByServerID
      (updateServerRow db server.id (fun t => { t with status := ServerStatusTerminated }))
      server.id = none := hip
  refine ⟨?_, ?_, ?_⟩
  · simp [TerminateServer, hvalid, hstEq, hipeq]
  · simp only [TerminateServer, hvalid, Bool.not_true, Bool.false_eq_true, if_false, hstEq, hipeq]
    exact h1
  · simp [TerminateServer, hvalid, hstEq, hipeq]

/-- Error path of `TerminateServer` when the deallocation statement fails:
the operation fails, again after the terminated status has been persisted. -/
theorem TerminateServer_dealloc_error {db : Db} {server : Server} {ip : IpAddress}
    (logFails : Bool) (reqId timeStr : String)
    (hfind : GetServer db server.id = some server)
    (hvalid : IsValidTransition server.status ServerStatusTerminated = true)
    (hip : GetIPAddressByServerID db server.id = some ip) :
    (TerminateServer db server true logFails reqId timeStr).1 =
      Except.error "failed to deallocate IP address"
    ∧ GetServer (TerminateServer db server true logFails reqId timeStr).2.1 server.id =
        some { server with status := ServerStatusTerminated } := by
  have hfind0 : db.servers.find? (fun t => t.id == server.id) = some server := hfind
  have hstEq := UpdateServerStatus_eq ServerStatusTerminated hfind0
  have h1 := find?_updateServerRow_some (fun t => { t with status := ServerStatusTerminated })
      (fun _ => rfl) hfind0
  have hipeq : GetIPAddressByServerID
      (updateServerRow db server.id (fun t => { t with status := ServerStatusTerminated }))
      server.id = some ip := hip
  refine ⟨?_, ?_⟩
  · simp [TerminateServer, hvalid, hstEq, hipeq]
  · simp only [TerminateServer, hvalid, Bool.not_true, Bool.false_eq_true, if_false, hstEq, hipeq,
      if_true]
    exact h1

/-- Success path of `TerminateServer`: with a bound address and a working
deallocate statement the operation succeeds — whether or not the log append
fails — the resulting server is terminated, and exactly one release event for
the bound address's row is emitted. -/
theorem TerminateServer_success {db : Db} {server : Server} {ip : IpAddress}
    (logFails : Bool) (reqId timeStr : String)
    (hfind : GetServer db server.id = some server)
    (hvalid : IsValidTransition server.status ServerStatusTerminated = true)
    (hip : GetIPAddressByServerID db server.id = some ip) :
    ∃ s', (TerminateServer db server false logFails reqId timeStr).1 = Except.ok s'
      ∧ s'.status = ServerStatusTerminated
      ∧ (TerminateServer db server false logFails reqId timeStr).2.2 =
          [AllocEvent.ipReleased ip.id] := by
  have hfind0 : db.servers.find? (fun t => t.id == server.id) = some server := hfind
  have hstEq := UpdateServerStatus_eq ServerStatusTerminated hfind0
  have h1 := find?_updateServerRow_some (fun t => { t with status := ServerStatusTerminated })
      (fun _ => rfl) hfind0
  have hipeq : GetIPAddressByServerID
      (updateServerRow db server.id (fun t => { t with status := ServerStatusTerminated }))
      server.id = some ip := hip
  have hmem : ip ∈ db.ipAddresses := List.mem_of_find?_eq_some hip
  have hsome : ((updateServerRow db server.id
      (fun t => { t with status := ServerStatusTerminated })).ipAddresses.find?
        (fun q => q.id == ip.id)).isSome := by
    rw [ipAddresses_updateServerRow, List.find?_isSome]
    exact ⟨ip, hmem, by simp⟩
  obtain ⟨ip2, hip2⟩ := Option.isSome_iff_exists.mp hsome
  obtain ⟨pr, db2, hdeq⟩ : ∃ pr db2, DeallocateIPAddress
      (updateServerRow db server.id (fun t => { t with status := ServerStatusTerminated }))
      ip.id = some (pr, db2) :=
    ⟨_, _, DeallocateIPAddress_eq hip2⟩
  have hservers : db2.servers = (updateServerRow db server.id
      (fun t => { t with status := ServerStatusTerminated })).servers := by
    unfold DeallocateIPAddress at hdeq
    rw [hip2] at hdeq
    cases hdeq
    rfl
  have h1' : db2.servers.find? (fun t => t.id == server.id) =
      some { server with status := ServerStatusTerminated } := by
    rw [hservers]; exact h1
  obtain ⟨s3, hfind3, hst3, _⟩ := appendLogBestEffort_find?
      (⟨reqId, "Server terminated", toString server.id, timeStr⟩ : LogEntry) logFails h1'
  have hget3 : GetServer (appendLogBestEffort db2 server.id
      (⟨reqId, "Server terminated", toString server.id, timeStr⟩ : LogEntry) logFails)
      server.id = some s3 := hfind3
  refine ⟨s3, ?_, ?_, ?_⟩
  · simp [TerminateServer, hvalid, hstEq, hipeq, hdeq, hget3]
  · rw [hst3]
  · simp [TerminateServer, hvalid, hstEq, hipeq, hdeq, hget3]

/-- C5: terminate on a server in a valid (non-terminal) state triggers the
release of the server's bound address (exactly one release event for its
row); a failing address fetch or a failing deallocate statement makes the
operation itself return an error, while a failing log append does not — the
operation still succeeds for either value of the log-failure knob. -/
theorem c5_terminate_release_and_hard_failures {db : Db} {server : Server}
    (reqId timeStr : String)
    (hfind : GetServer db server.id = some server)
    (hvalid : IsValidTransition server.status ServerStatusTerminated = true) :
    (GetIPAddressByServerID db server.id = none →
      ∀ deallocFails logFails : Bool,
        (TerminateServer db server deallocFails logFails reqId timeStr).1 =
          Except.error "failed to get IP address by server ID")
    ∧ (∀ ip, GetIPAddressByServerID db server.id = some ip →
        ∀ logFails : Bool,
          (TerminateServer db server true logFails reqId timeStr).1 =
            Except.error "failed to deallocate IP address")
    ∧ (∀ ip, GetIPAddressByServerID db server.id = some ip →
        ∀ logFails : Bool,
          ∃ s', (TerminateServer db server false logFails reqId timeStr).1 = Except.ok s'
            ∧ (TerminateServer db server false logFails reqId timeStr).2.2 =
                [AllocEvent.ipReleased ip.id]) := by
  refine ⟨?_, ?_, ?_⟩
  · intro hip deallocFails logFails
    exact (TerminateServer_fetch_error deallocFails logFails reqId timeStr hfind hvalid hip).1
  · intro ip hip logFails
    exact (TerminateServer_dealloc_error logFails reqId timeStr hfind hvalid hip).1
  · intro ip hip logFails
    obtain ⟨s', h1, _, h3⟩ := TerminateServer_success logFails reqId timeStr hfind hvalid hip
    exact ⟨s', h1, h3⟩

/-- Witness for C5 at concrete stores: a stopped server with no address row
fails on fetch; with a bound row and a failing deallocate it fails; with a
bound row and a failing log append it still succeeds and emits the release
event for row 7. -/
theorem c5_terminate_release_and_hard_failures_witness :
    (TerminateServer exDbStoppedUnbound exServerStopped false false "" "").1 =
      Except.error "failed to get IP address by server ID"
    ∧ (TerminateServer exDbStoppedBound exServerStopped true false "" "").1 =
      Except.error "failed to deallocate IP address"
    ∧ ∃ s', (TerminateServer exDbStoppedBound exServerStopped false true "" "").1 = Except.ok s'
        ∧ (TerminateServer exDbStoppedBound exServerStopped false true "" "").2.2 =
            [AllocEvent.ipReleased exIpBoundStopped.id] :=
  ⟨(@c5_terminate_release_and_hard_failures exDbStoppedUnbound exServerStopped "" ""
      rfl (by decide)).1 rfl false false,
   (@c5_terminate_release_and_hard_failures exDbStoppedBound exServerStopped "" ""
      rfl (by decide)).2.1 exIpBoundStopped rfl false,
   (@c5_terminate_release_and_hard_failures exDbStoppedBound exServerStopped "" ""
      rfl (by decide)).2.2 exIpBoundStopped rfl true⟩

/-- Counterexample to C6 as stated: terminating the stopped server of
`exDbStoppedUnbound`, which has no owning address row, is not a successful
no-op — the fetch of the bound address fails and the whole terminate
operation returns an error. -/
theorem c6_counterexample :
    (TerminateServer exDbStoppedUnbound exServerStopped false false "" "").1 =
      Except.error "failed to get IP address by server ID"
    ∧ (TerminateServer exDbStoppedUnbound exServerStopped false false "" "").2.2 = [] :=
  ⟨rfl, rfl⟩

/-- C6 (amended): releasing the address of a server with no bound address is
not a tolerated no-op: `GetIPAddressByServerID` is a single-row query, so for
every server id with no owning address row the fetch step fails and the
terminate operation returns an error (no release event is ever emitted). -/
theorem c6_terminate_unbound_errors {db : Db} {server : Server}
    (deallocFails logFails : Bool) (reqId timeStr : String)
    (hfind : GetServer db server.id = some server)
    (hvalid : IsValidTransition server.status ServerStatusTerminated = true)
    (hnone : GetIPAddressByServerID db server.id = none) :
    (TerminateServer db server deallocFails logFails reqId timeStr).1 =
      Except.error "failed to get IP address by server ID"
    ∧ (TerminateServer db server deallocFails logFails reqId timeStr).2.2 = [] := by
  obtain ⟨h1, _, h3⟩ := TerminateServer_fetch_error deallocFails logFails reqId timeStr
    hfind hvalid hnone
  exact ⟨h1, h3⟩

/-- Witness for C6 (amended) at the concrete store `exDbStoppedUnbound`. -/
theorem c6_terminate_unbound_errors_witness :
    (TerminateServer exDbStoppedUnbound exServerStopped true false "" "").1 =
      Except.error "failed to get IP address by server ID"
    ∧ (TerminateServer exDbStoppedUnbound exServerStopped true false "" "").2.2 = [] :=
  @c6_terminate_unbound_errors exDbStoppedUnbound exServerStopped true false "" ""
    rfl (by decide) rfl

/-- C10: termination is not atomic on its error path — when the address fetch
or the deallocate statement fails, `TerminateServer` returns an error, yet
the server's status has already been persisted as `terminated` in the
returned store and is not rolled back. -/
theorem c10_terminate_not_atomic {db : Db} {server : Server} (reqId timeStr : String)
    (hfind : GetServer db server.id = some server)
    (hvalid : IsValidTransition server.status ServerStatusTerminated = true) :
    (GetIPAddressByServerID db server.id = none →
      ∀ deallocFails logFails : Bool,
        (TerminateServer db server deallocFails logFails reqId timeStr).1 =
          Except.error "failed to get IP address by server ID"
        ∧ GetServer (TerminateServer db server deallocFails logFails reqId timeStr).2.1
            server.id = some { server with status := ServerStatusTerminated })
    ∧ (∀ ip, GetIPAddressByServerID db server.id = some ip →
        ∀ logFails : Bool,
          (TerminateServer db server true logFails reqId timeStr).1 =
            Except.error "failed to deallocate IP address"
          ∧ GetServer (TerminateServer db server true logFails reqId timeStr).2.1
              server.id = some { server with status := ServerStatusTerminated }) := by
  constructor
  · intro hip deallocFails logFails
    obtain ⟨h1, h2, _⟩ := TerminateServer_fetch_error deallocFails logFails reqId timeStr
      hfind hvalid hip
    exact ⟨h1, h2⟩
  · intro ip hip logFails
    exact TerminateServer_dealloc_error logFails reqId timeStr hfind hvalid hip

/-- Witness for C10: in both concrete error scenarios the returned store
already holds the server with status `terminated`. -/
theorem c10_terminate_not_atomic_witness :
    ((TerminateServer exDbStoppedUnbound exServerStopped false false "" "").1 =
        Except.error "failed to get IP address by server ID"
      ∧ GetServer (TerminateServer exDbStoppedUnbound exServerStopped false false "" "").2.1
          exServerStopped.id = some { exServerStopped with status := ServerStatusTerminated })
    ∧ ((TerminateServer exDbStoppedBound exServerStopped true false "" "").1 =
        Except.error "failed to deallocate IP address"
      ∧ GetServer (TerminateServer exDbStoppedBound exServerStopped true false "" "").2.1
          exServerStopped.id = some { exServerStopped with status := ServerStatusTerminated }) :=
  ⟨(@c10_terminate_not_atomic exDbStoppedUnbound exServerStopped "" "" rfl (by decide)).1
      rfl false false,
   (@c10_terminate_not_atomic exDbStoppedBound exServerStopped "" "" rfl (by decide)).2
      exIpBoundStopped rfl false⟩

/-- C9: a reboot request on a server in any non-terminal state — including
Running itself — transitions the server directly to Running; a reboot request
on a Terminated server is the only rejected case, with an invalid-transition
error. -/
theorem c9_reboot_direct_to_running {db : Db} {server : Server} (logFails : Bool)
    (reqId timeStr : String)
    (hfind : GetServer db server.id = some server) :
    (server.status ≠ ServerStatusTerminated →
      ∃ s', (RebootServer db server logFails reqId timeStr).1 = Except.ok s'
        ∧ s'.status = ServerStatusRunning)
    ∧ (server.status = ServerStatusTerminated →
      (RebootServer db server logFails reqId timeStr).1 =
        Except.error ("invalid state transition: cannot reboot from " ++ server.status)) := by
  have hfind0 : db.servers.find? (fun t => t.id == server.id) = some server := hfind
  constructor
  · intro hne
    obtain ⟨s1, hfind1, _, _⟩ := appendLogBestEffort_find?
        (⟨reqId, "Server reboot initiated", toString server.id, timeStr⟩ : LogEntry) logFails hfind0
    have hstEq := UpdateServerStatus_eq ServerStatusRunning hfind1
    refine ⟨{ s1 with status := ServerStatusRunning }, ?_, rfl⟩
    simp [RebootServer, hne, hstEq]
  · intro heq
    simp [RebootServer, heq]

/-- Witness for C9: rebooting the concrete running server succeeds into
Running; rebooting the concrete terminated server fails with the
invalid-transition error. -/
theorem c9_reboot_direct_to_running_witness :
    (∃ s', (RebootServer exDbBound exServerRunning false "" "").1 = Except.ok s'
      ∧ s'.status = ServerStatusRunning)
    ∧ (RebootServer exDbTerminated exServerTerminated false "" "").1 =
        Except.error ("invalid state transition: cannot reboot from " ++ exServerTerminated.status) :=
  ⟨(@c9_reboot_direct_to_running exDbBound exServerRunning false "" "" rfl).1 (by decide),
   (@c9_reboot_direct_to_running exDbTerminated exServerTerminated false "" "" rfl).2 rfl⟩

/-- Membership in the pool-population loop: starting at `start` with `fuel`
addresses left, the loop inserts exactly the addresses of
`[start, start + fuel)` that are neither excluded nor the base. -/
theorem mem_populatePoolLoop (exclude : List Nat) (base : Nat) :
    ∀ (fuel start a : Nat),
      a ∈ populatePoolLoop exclude base start fuel ↔
        (start ≤ a ∧ a < start + fuel ∧ a ∉ exclude ∧ a ≠ base) := by
  intro fuel
  induction fuel with
  | zero =>
    intro start a
    constructor
    · intro h
      simp [populatePoolLoop] at h
    · rintro ⟨h1, h2, -, -⟩
      omega
  | succ n ih =>
    intro start a
    by_cases hc : (exclude.contains start || start == base) = true
    · simp only [populatePoolLoop]
      rw [if_pos hc, ih (start + 1) a]
      simp only [Bool.or_eq_true, List.contains_eq_any_beq, List.any_eq_true, beq_iff_eq] at hc
      constructor
      · rintro ⟨h1, h2, h3, h4⟩
        exact ⟨by omega, by omega, h3, h4⟩
      · rintro ⟨h1, h2, h3, h4⟩
        have hna : a ≠ start := by
          rintro rfl
          rcases hc with ⟨x, hx, rfl⟩ | hx
          · exact h3 hx
          · exact h4 hx
        exact ⟨by omega, by omega, h3, h4⟩
    · simp only [populatePoolLoop]
      rw [if_neg hc]
      simp only [List.mem_cons]
      rw [ih (start + 1) a]
      simp only [Bool.or_eq_true, List.contains_eq_any_beq, List.any_eq_true, beq_iff_eq,
        not_or, not_exists, not_and] at hc
      constructor
      · rintro (rfl | ⟨h1, h2, h3, h4⟩)
        · refine ⟨Nat.le_refl _, by omega, ?_, ?_⟩
          · intro hmem
            exact hc.1 a hmem rfl
          · intro hbase
            exact hc.2 hbase
        · exact ⟨by omega, by omega, h3, h4⟩
      · rintro ⟨h1, h2, h3, h4⟩
        by_cases ha : a = start
        · exact Or.inl ha
        · exact Or.inr ⟨by omega, by omega, h3, h4⟩

/-- C8: pool initialization over a block of `2 ^ hostBits` addresses starting
at the base address inserts exactly the addresses of the block that are
neither the base (network) address nor excluded; in particular the base
address is never in the pool. -/
theorem c8_pool_initialization (base hostBits : Nat) (exclude : List Nat) :
    (∀ a, a ∈ TerminateAllServersPool base (2 ^ hostBits) exclude ↔
      (base ≤ a ∧ a < base + 2 ^ hostBits ∧ a ∉ exclude ∧ a ≠ base))
    ∧ base ∉ TerminateAllServersPool base (2 ^ hostBits) exclude := by
  have hmem := mem_populatePoolLoop exclude base (2 ^ hostBits) base
  constructor
  · intro a
    exact hmem a
  · intro h
    exact ((hmem base).mp h).2.2.2 rfl

/-- Witness for C8 at a concrete block (base 8, 2³ addresses, exclusions
{12, 13}): the membership characterisation at address 10 and the absence of
the base address. -/
theorem c8_pool_initialization_witness :
    (10 ∈ TerminateAllServersPool 8 (2 ^ 3) [12, 13] ↔
      (8 ≤ 10 ∧ 10 < 8 + 2 ^ 3 ∧ 10 ∉ ([12, 13] : List Nat) ∧ 10 ≠ 8))
    ∧ 8 ∉ TerminateAllServersPool 8 (2 ^ 3) [12, 13] :=
  ⟨(c8_pool_initialization 8 3 [12, 13]).1 10, (c8_pool_initialization 8 3 [12, 13]).2⟩

end ServerLifecycle
